import Mathlib

/-!
Shallow embedding of the price-data consolidation and export pipeline
(`mp_data/data.py`), together with theorems checking the specification's
claims about it.

Modelling conventions:
* Nullable database columns (`Assignment.price`, `Assignment.quantity`,
  `Assignment.currency`) are `Option` values; `none` is Python's `None`.
* Prices are integers (cents), as the source stores and compares them.
* A Python exception escaping a function is `Except.error ()`; normal
  returns are `Except.ok`.
* `datetime` values are modelled by their UTC date string (`strftime`
  of the date part, the only component the pipeline reads) plus an
  abstract time-of-day tag, so distinct timestamps on one day stay
  distinct.
* Floating-point unit-price arithmetic is idealised over `ℚ`; the one
  place where IEEE semantics is observable (`scipy.stats.zscore` of a
  zero-variance column is NaN, and `NaN < 1` is `False`) is embedded
  explicitly in `zscoreLtOne`.
* The external currency converter and ISO-4217 symbol resolution are
  parameters of the functions that use them (`resolve`, `conv`, and the
  derived unit-price map `up`); the repository itself does not define
  them.
-/

/-- UTC timestamp, modelled as its ISO date string plus a time-of-day tag. -/
structure PyDateTime where
  dateStr : String
  timeOfDay : Nat
deriving DecidableEq, Repr

/-- The `HIT` row (`db.py`): one crowdsourcing task for a product listing. -/
structure HIT where
  creation_time : PyDateTime
  url_param : String
  domain_name : String
deriving DecidableEq, Repr

/-- The `Assignment` row (`db.py`): one worker's answer for a `HIT`.
`price`, `currency` and `quantity` are nullable columns. -/
structure Assignment where
  hit : HIT
  price : Option Int
  currency : Option String
  quantity : Option Int
  in_stock : Bool
deriving DecidableEq, Repr

/-- The stored fields of the `_Observation` dataclass (`data.py` lines 46-58),
without the freshly generated `uuid`.  `price_cents` and `currency_symbol`
keep the value the consolidator passed in, which can be `None`. -/
structure ObsData where
  datetime : PyDateTime
  price_cents : Option Int
  currency_symbol : Option String
  quantity : Int
  in_stock : Bool
  domain_name : String
  url : String
deriving DecidableEq, Repr

/-- The `_Observation` dataclass: its stored data plus the `uuid` that
`__post_init__` draws freshly (`uuid.uuid4().hex`), modelled as a `Nat`
supplied by the caller. -/
structure Observation extends ObsData where
  uuid : Nat
deriving DecidableEq, Repr

/-- The `OUTLIER_THRESHOLD` (`data.py` line 26). -/
def OUTLIER_THRESHOLD : ℚ := 1

/-- The `MIN_MATCHING_RESULT` (`data.py` line 27). -/
def MIN_MATCHING_RESULT : Nat := 2

/-- The `_Observation.date_str`: the ISO string of the UTC date part. -/
def ObsData.date_str (o : ObsData) : String :=
  o.datetime.dateStr

/-- The `if domain_name.startswith("www."): name = domain_name[len("www."):]`
on the character list of the domain name. -/
def stripWww : List Char → List Char
  | 'w' :: 'w' :: 'w' :: '.' :: rest => rest
  | l => l

/-- The `name.replace(".", "_")`: with a one-character pattern and a
one-character replacement this is the character-wise map. -/
def dotToUnderscore (l : List Char) : List Char :=
  l.map (fun ch => if ch = '.' then '_' else ch)

/-- The `_Observation.marketplace`: the domain name with a leading `www.`
stripped and every `.` replaced by `_`. -/
def ObsData.marketplace (o : ObsData) : String :=
  String.mk (dotToUnderscore (stripWww o.domain_name.data))

/-- The `_check_legit_quantity` (`data.py` lines 166-167) applied to an actual
integer: `5 <= quantity <= 500 and quantity % 5 == 0`.  (Applied to `None`
the Python comparison `5 <= None` raises `TypeError`; that case is
embedded at the call site in `_consolidate_core`.) -/
def _check_legit_quantity (quantity : Int) : Bool :=
  5 ≤ quantity ∧ quantity ≤ 500 ∧ quantity % 5 = 0

/-- The grouping key of `_consolidate_assignments`:
the tuple `(a.price, a.quantity, a.currency, a.in_stock)`. -/
structure ReportTuple where
  price : Option Int
  quantity : Option Int
  currency : Option String
  in_stock : Bool
deriving DecidableEq, Repr

/-- The tuple `(a.price, a.quantity, a.currency, a.in_stock)` of one report. -/
def tupleOf (a : Assignment) : ReportTuple :=
  ⟨a.price, a.quantity, a.currency, a.in_stock⟩

/-- One `count[t] += 1` step on the insertion-ordered counting dict. -/
def bumpCount (t : ReportTuple) : List (ReportTuple × Nat) → List (ReportTuple × Nat)
  | [] => [(t, 1)]
  | (t2, n) :: rest =>
    if t2 = t then (t2, n + 1) :: rest else (t2, n) :: bumpCount t rest

/-- The `count` dict of `_consolidate_assignments` (lines 140-143):
occurrence counts of report tuples, keys in first-insertion order
(Python dicts preserve insertion order). -/
def countTuples (assignments : List Assignment) : List (ReportTuple × Nat) :=
  assignments.foldl (fun acc a => bumpCount (tupleOf a) acc) []

/-- The `max(count.values())` (line 144). -/
def maxCountOf (assignments : List Assignment) : Nat :=
  ((countTuples assignments).map Prod.snd).foldl Nat.max 0

/-- The `next(k for k in count if count[k] == max_count)` (line 146): the first
key, in insertion order, whose count is maximal. -/
def majorityOf (assignments : List Assignment) : Option ReportTuple :=
  ((countTuples assignments).find? (fun kc => kc.2 = maxCountOf assignments)).map Prod.fst

/-- The `_consolidate_assignments` (`data.py` lines 135-163) up to the stored
observation fields; `__post_init__`'s uuid is attached by the wrapper
`_consolidate_assignments` below.  `Except.error ()` is the `TypeError`
Python raises in `_check_legit_quantity` when the majority quantity is
`None` (`5 <= None`). -/
def _consolidate_core (assignments : List Assignment) : Except Unit (Option ObsData) :=
  match assignments with
  | [] => .ok none
  | a0 :: _ =>
    if MIN_MATCHING_RESULT ≤ maxCountOf assignments then
      match majorityOf assignments with
      | none => .ok none
      | some t =>
        match t.quantity with
        | none => .error ()
        | some q =>
          if ¬ _check_legit_quantity q ∨ t.price = some 0 then .ok none
          else
            .ok (some
              { datetime := a0.hit.creation_time
                price_cents := t.price
                currency_symbol := t.currency
                quantity := q
                in_stock := t.in_stock
                domain_name := a0.hit.domain_name
                url := a0.hit.url_param })
    else .ok none

/-- The `_consolidate_assignments`: the consolidator, with the fresh uuid the
`_Observation` constructor generates supplied as the argument `u`. -/
def _consolidate_assignments (u : Nat) (assignments : List Assignment) :
    Except Unit (Option Observation) :=
  (_consolidate_core assignments).map
    (Option.map (fun d => { toObsData := d, uuid := u }))

/-- Arithmetic mean of a list of rationals (`np.mean`, idealised). -/
def listMean (xs : List ℚ) : ℚ :=
  xs.sum / xs.length

/-- Population variance of a list of rationals (`ddof=0`, as
`scipy.stats.zscore` uses). -/
def listVar (xs : List ℚ) : ℚ :=
  (xs.map (fun x => (x - listMean xs) ^ 2)).sum / xs.length

/-- The per-row test `np.abs(stats.zscore(df)) < OUTLIER_THRESHOLD`
(`data.py` line 222) for the row with value `x` in the column `xs`.
The source compares `|x - mean| / std < 1` with `std = sqrt var`; for
`std > 0` squaring both sides gives the equivalent rational test
`(x - mean)^2 < var`.  When the column is constant (`var = 0`) the float
z-score is `0/0 = NaN` and `NaN < 1` is `False`, so the test fails. -/
def zscoreLtOne (xs : List ℚ) (x : ℚ) : Bool :=
  if listVar xs = 0 then false
  else decide ((x - listMean xs) ^ 2 < OUTLIER_THRESHOLD ^ 2 * listVar xs)

/-- The `itertools.product(marketplaces, dates)` (`data.py` lines 210-213):
all pairs of a marketplace key and a date string occurring in the batch.
Python iterates the two sets in an unspecified order; the embedding uses
first-occurrence order, which none of the proved statements depend on. -/
def bucketPairs (observations : List Observation) : List (String × String) :=
  ((observations.map (fun o => o.toObsData.marketplace)).dedup).flatMap (fun m =>
    ((observations.map (fun o => o.toObsData.date_str)).dedup).map (fun d => (m, d)))

/-- The `curr_observations` (`data.py` line 214): the bucket of observations
with the given marketplace key and date string. -/
def bucketOf (observations : List Observation) (m d : String) : List Observation :=
  observations.filter (fun o => decide (o.toObsData.marketplace = m ∧ o.toObsData.date_str = d))

/-- The `_filter_outliers` (`data.py` lines 209-227): partition the batch into
(marketplace, date) buckets; keep buckets of fewer than 3 whole; in larger
buckets keep the observations whose uuid indexes a row passing the
z-score test. -/
def _filter_outliers (up : ObsData → ℚ) (observations : List Observation) : List Observation :=
  (bucketPairs observations).flatMap (fun md =>
    let curr := bucketOf observations md.1 md.2
    if curr.length < 3 then curr
    else
      let ups := curr.map (fun o => up o.toObsData)
      let allowed := (curr.filter (fun o => zscoreLtOne ups (up o.toObsData))).map (fun o => o.uuid)
      curr.filter (fun o => decide (o.uuid ∈ allowed)))

/-- The `np.median` of a list of rationals: middle element of the sorted list,
or the mean of the two middle elements for even length.  (`np.median` of
an empty array is NaN; the pipeline never takes the median of an empty
group, and the embedding returns the junk value 0 there.) -/
def median (xs : List ℚ) : ℚ :=
  let s := xs.mergeSort (fun a b => decide (a ≤ b))
  let n := s.length
  if n % 2 = 1 then s.getD (n / 2) 0
  else (s.getD (n / 2 - 1) 0 + s.getD (n / 2) 0) / 2

/-- One `daily_unit_prices[key].append(v)` step on the insertion-ordered
`defaultdict(list)`. -/
def appendAt (key : String × String) (v : ℚ) :
    List ((String × String) × List ℚ) → List ((String × String) × List ℚ)
  | [] => [(key, [v])]
  | (k, vs) :: rest =>
    if k = key then (k, vs ++ [v]) :: rest else (k, vs) :: appendAt key v rest

/-- The `daily_unit_prices` (`data.py` lines 171-174): unit prices grouped by
(date string, marketplace key), groups in first-insertion order. -/
def daily_unit_prices (up : ObsData → ℚ) (observations : List ObsData) :
    List ((String × String) × List ℚ) :=
  observations.foldl (fun acc o => appendAt (o.date_str, o.marketplace) (up o) acc) []

/-- One `daily_medians[marketplace].append(row)` step. -/
def appendRow (key : String) (row : String × ℚ) :
    List (String × List (String × ℚ)) → List (String × List (String × ℚ))
  | [] => [(key, [row])]
  | (k, rs) :: rest =>
    if k = key then (k, rs ++ [row]) :: rest else (k, rs) :: appendRow key row rest

/-- The `daily_medians` (`data.py` lines 175-179): per marketplace, the list of
`(Date, median unit price)` rows. -/
def daily_medians (up : ObsData → ℚ) (observations : List ObsData) :
    List (String × List (String × ℚ)) :=
  (daily_unit_prices up observations).foldl
    (fun acc kv => appendRow kv.1.2 (kv.1.1, median kv.2) acc) []

/-- The `_export_timeseries` (`data.py` lines 170-183), modelled as the rows of
the written CSV files: per marketplace key, the `(Date, median)` rows
sorted ascending by date string. -/
def _export_timeseries (up : ObsData → ℚ) (observations : List ObsData) :
    List (String × List (String × ℚ)) :=
  (daily_medians up observations).map
    (fun kv => (kv.1, kv.2.mergeSort (fun a b => decide (a.1 ≤ b.1))))

/-- The `sorted(o.date_str for o in observations)[-1]` (`data.py` line 198):
the lexicographically greatest date string.  (Python raises `IndexError`
on an empty list; the caller only passes marketplaces that occur, and the
embedding returns the junk value `""` there.) -/
def latestDateStr (dates : List String) : String :=
  (dates.mergeSort (fun a b => decide (a ≤ b))).getLastD ""

/-- The `_export_latest_marketplace` (`data.py` lines 192-206), modelled as the
rows of the written CSV file: the `(Url, unit price)` rows of the given
marketplace's observations on its latest date, sorted ascending by unit
price. -/
def _export_latest_marketplace (up : ObsData → ℚ) (all_observations : List ObsData)
    (marketplace_key : String) : List (String × ℚ) :=
  let observations := all_observations.filter (fun o => decide (o.marketplace = marketplace_key))
  let latest_date := latestDateStr (observations.map ObsData.date_str)
  let items := (observations.filter (fun o => decide (o.date_str = latest_date))).map
    (fun o => (o.url, up o))
  items.mergeSort (fun a b => decide (a.2 ≤ b.2))

/-- The `_export_latest_observations` (`data.py` lines 186-189): one latest
snapshot per marketplace key occurring in the batch. -/
def _export_latest_observations (up : ObsData → ℚ) (observations : List ObsData) :
    List (String × List (String × ℚ)) :=
  ((observations.map ObsData.marketplace).dedup).map
    (fun m => (m, _export_latest_marketplace up observations m))

/-- The consolidation loop of `export` (`data.py` lines 111-115) over the
task groups, uuid-free: consolidate each group, collect the successful
observations in order, propagate the first exception. -/
def collectData : List (List Assignment) → Except Unit (List ObsData)
  | [] => .ok []
  | gp :: rest => do
    let r ← _consolidate_core gp
    let others ← collectData rest
    match r with
    | some d => .ok (d :: others)
    | none => .ok others

/-- The consolidation loop of `export` with uuids: the group at position
`i` (counting from the given start index) consolidates with the fresh
uuid `uuidOf i`.  Modelling `uuid.uuid4().hex` by an arbitrary injective
assignment of naturals. -/
def collectObservationsAux (uuidOf : Nat → Nat) (i : Nat) :
    List (List Assignment) → Except Unit (List Observation)
  | [] => .ok []
  | gp :: rest => do
    let r ← _consolidate_assignments (uuidOf i) gp
    let others ← collectObservationsAux uuidOf (i + 1) rest
    match r with
    | some o => .ok (o :: others)
    | none => .ok others

/-- The rows of both output artifact sets: per marketplace the time-series
rows and per marketplace the latest-snapshot rows. -/
abbrev ExportOutput : Type :=
  List (String × List (String × ℚ)) × List (String × List (String × ℚ))

/-- The `export` command (`data.py` lines 107-124) from the fetched task
groups to the rows of the written files: consolidate each group, filter
outliers, export the time series and the latest snapshots.  `uuidOf`
stands for the fresh uuids drawn in `_Observation.__post_init__`; `up`
for the externally-converted `unit_price_usd` property. -/
def runPipeline (up : ObsData → ℚ) (uuidOf : Nat → Nat)
    (groups : List (List Assignment)) : Except Unit ExportOutput := do
  let all_observations ← collectObservationsAux uuidOf 0 groups
  let filtered := _filter_outliers up all_observations
  let filteredData := filtered.map Observation.toObsData
  .ok (_export_timeseries up filteredData, _export_latest_observations up filteredData)

/-- The `_Observation.price` (`data.py` lines 60-62): `price_cents / 100`, or
the `TypeError` of `None / 100` when the stored price is `None`. -/
def ObsData.price (o : ObsData) : Option ℚ :=
  o.price_cents.map (fun c => (c : ℚ) / 100)

/-- The `_Observation.iso_currency` (`data.py` lines 72-78): the dollar sign is
taken as USD; any other present symbol is resolved through
`iso4217parse.parse(...)[0].alpha3`, modelled by the external `resolve`
parameter (`none` is a resolution failure, which raises).  A `None`
currency symbol also makes the `parse` call raise. -/
def ObsData.iso_currency (resolve : String → Option String) (o : ObsData) : Option String :=
  match o.currency_symbol with
  | some s => if s = "$" then some "USD" else resolve s
  | none => none

/-- The `_Observation.price_usd` (`data.py` lines 80-86): the stored price
unchanged for USD, otherwise the external converter applied to the price,
the resolved currency and the observation's date.  `none` is a raised
exception (currency resolution failure or `None` stored price). -/
def ObsData.price_usd (resolve : String → Option String)
    (conv : ℚ → String → String → ℚ) (o : ObsData) : Option ℚ :=
  match o.iso_currency resolve with
  | none => none
  | some iso =>
    match o.price with
    | none => none
    | some p => if iso = "USD" then some p else some (conv p iso o.date_str)

/-- The `_Observation.unit_price_usd` (`data.py` lines 88-90): `price_usd /
quantity`. -/
def ObsData.unit_price_usd (resolve : String → Option String)
    (conv : ℚ → String → String → ℚ) (o : ObsData) : Option ℚ :=
  (o.price_usd resolve conv).map (fun p => p / (o.quantity : ℚ))

/-- A concrete task used by the concrete test inputs below. -/
def exHit : HIT :=
  ⟨⟨"2024-03-01", 0⟩, "https://shop.test/mask", "www.shop.test"⟩

/-- A concrete worker report for `exHit`. -/
def exReport (p q : Option Int) (c : Option String) (s : Bool) : Assignment :=
  ⟨exHit, p, c, q, s⟩

/-- Two agreeing reports whose (majority) price is missing (`None`). -/
def nonePriceReports : List Assignment :=
  [exReport none (some 5) (some "USD") true,
   exReport none (some 5) (some "USD") true]

/-- The Observation the consolidator builds from `nonePriceReports`: its
stored price is `None`. -/
def nonePriceObs : Observation :=
  { datetime := exHit.creation_time
    price_cents := none
    currency_symbol := some "USD"
    quantity := 5
    in_stock := true
    domain_name := exHit.domain_name
    url := exHit.url_param
    uuid := 0 }

/-- The Observation built from two agreeing `(1000, 5, USD, true)` reports
with fresh uuid 9. -/
def exGoodObs : Observation :=
  { datetime := exHit.creation_time
    price_cents := some 1000
    currency_symbol := some "USD"
    quantity := 5
    in_stock := true
    domain_name := exHit.domain_name
    url := exHit.url_param
    uuid := 9 }

/-- Two agreeing reports whose (majority) quantity is missing (`None`). -/
def noneQuantityReports : List Assignment :=
  [exReport (some 1000) none (some "USD") true,
   exReport (some 1000) none (some "USD") true]

/-- A report list with a tie for the maximum count: two tuples each occur
twice. -/
def tieReports : List Assignment :=
  [exReport (some 1000) (some 5) (some "USD") true,
   exReport (some 2000) (some 10) (some "EUR") false,
   exReport (some 1000) (some 5) (some "USD") true,
   exReport (some 2000) (some 10) (some "EUR") false]

/-- A concrete dollar-sign-priced observation: 1000 cents for 5 units. -/
def exUsdObs : ObsData :=
  ⟨⟨"2024-03-01", 0⟩, some 1000, some "$", 5, true, "www.shop.test", "https://shop.test/m"⟩

/-- Four observations of one marketplace and day, distinct uuids. -/
def identicalBucketObs : List Observation :=
  [⟨⟨⟨"2024-04-01", 0⟩, some 1000, some "$", 100, true, "mask.shop", "https://mask.shop/a"⟩, 0⟩,
   ⟨⟨⟨"2024-04-01", 0⟩, some 1000, some "$", 100, true, "mask.shop", "https://mask.shop/b"⟩, 1⟩,
   ⟨⟨⟨"2024-04-01", 0⟩, some 1000, some "$", 100, true, "mask.shop", "https://mask.shop/c"⟩, 2⟩,
   ⟨⟨⟨"2024-04-01", 0⟩, some 1000, some "$", 100, true, "mask.shop", "https://mask.shop/d"⟩, 3⟩]

/-- The `_filter_outliers` with the uuid bookkeeping eliminated: in each large
bucket, keep exactly the observations passing the z-score test. -/
def filterPointwise (up : ObsData → ℚ) (observations : List Observation) : List Observation :=
  (bucketPairs observations).flatMap (fun md =>
    let curr := bucketOf observations md.1 md.2
    if curr.length < 3 then curr
    else curr.filter (fun o => zscoreLtOne (curr.map (fun b => up b.toObsData)) (up o.toObsData)))

/-- The unit prices of one (marketplace, date) bucket. -/
def bucketUnitPrices (up : ObsData → ℚ) (observations : List Observation) (m d : String) :
    List ℚ :=
  (bucketOf observations m d).map (fun b => up b.toObsData)

/-- A concrete two-day batch of observation data for one marketplace. -/
def c9Data : List ObsData :=
  [⟨⟨"2024-01-01", 0⟩, some 1000, some "$", 5, true, "m.shop", "u1"⟩,
   ⟨⟨"2024-01-02", 0⟩, some 1000, some "$", 5, true, "m.shop", "u2"⟩]

/-- Three observations of one marketplace and day with distinct uuids;
under `c2up` their unit prices are 10, 10 and 16. -/
def c2ObsA : Observation :=
  ⟨⟨⟨"2024-05-01", 0⟩, some 1000, some "$", 100, true, "shop.a", "a"⟩, 10⟩

/-- Second observation of the concrete C2 bucket. -/
def c2ObsB : Observation :=
  ⟨⟨⟨"2024-05-01", 0⟩, some 1000, some "$", 100, true, "shop.a", "b"⟩, 11⟩

/-- Third observation of the concrete C2 bucket. -/
def c2ObsC : Observation :=
  ⟨⟨⟨"2024-05-01", 0⟩, some 1600, some "$", 100, true, "shop.a", "c"⟩, 12⟩

/-- The concrete C2 batch. -/
def c2Batch : List Observation := [c2ObsA, c2ObsB, c2ObsC]

/-- The unit-price map of the concrete C2 batch. -/
def c2up : ObsData → ℚ := fun d => if d.url = "c" then 16 else 10

/-- The pointwise outlier filter expressed on the uuid-free observation
data. -/
def filterPointwiseData (up : ObsData → ℚ) (ds : List ObsData) : List ObsData :=
  (((ds.map ObsData.marketplace).dedup).flatMap (fun m =>
    ((ds.map ObsData.date_str).dedup).map (fun d => (m, d)))).flatMap (fun md =>
    let curr := ds.filter (fun o => decide (o.marketplace = md.1 ∧ o.date_str = md.2))
    if curr.length < 3 then curr
    else curr.filter (fun o => zscoreLtOne (curr.map up) (up o)))

/-! ## Theorems -/

/-- C10: Calling the consolidator on an empty list of reports returns
`None` without raising (the `len(assignments) == 0` guard), for any fresh
uuid the constructor would have drawn. -/
theorem consolidate_empty_C10 (u : Nat) :
    _consolidate_assignments u [] = .ok none := rfl

/-- C3: For a non-empty report list (head `a0`), if the highest occurrence
count of a `(price, quantity, currency, in_stock)` tuple is below 2 the
consolidator returns `None`; if it is at least 2 and the majority tuple
passes the quantity and nonzero-price sanity filters, it returns an
Observation carrying the majority tuple's values together with the task's
creation timestamp, URL and domain name. -/
theorem consolidate_majority_C3 (u : Nat) (reports : List Assignment) (a0 : Assignment)
    (h0 : reports.head? = some a0) :
    (maxCountOf reports < 2 → _consolidate_assignments u reports = .ok none) ∧
    (∀ t q, majorityOf reports = some t → 2 ≤ maxCountOf reports →
      t.quantity = some q → _check_legit_quantity q = true → t.price ≠ some 0 →
      _consolidate_assignments u reports = .ok (some
        { datetime := a0.hit.creation_time
          price_cents := t.price
          currency_symbol := t.currency
          quantity := q
          in_stock := t.in_stock
          domain_name := a0.hit.domain_name
          url := a0.hit.url_param
          uuid := u })) := by
  obtain ⟨rest, rfl⟩ : ∃ rest, reports = a0 :: rest := by
    cases reports with
    | nil => simp at h0
    | cons b l =>
      simp only [List.head?_cons, Option.some.injEq] at h0
      exact ⟨l, by rw [h0]⟩
  constructor
  · intro hlt
    have hcond : ¬ MIN_MATCHING_RESULT ≤ maxCountOf (a0 :: rest) := by
      simpa [MIN_MATCHING_RESULT] using hlt
    simp [_consolidate_assignments, _consolidate_core, Except.map, hcond]
  · intro t q hmaj hge hq hleg hp
    have hcond : MIN_MATCHING_RESULT ≤ maxCountOf (a0 :: rest) := by
      simpa [MIN_MATCHING_RESULT] using hge
    obtain ⟨kc, hfind, rfl⟩ :
        ∃ kc, (countTuples (a0 :: rest)).find?
            (fun kc => kc.2 = maxCountOf (a0 :: rest)) = some kc ∧ kc.1 = t := by
      unfold majorityOf at hmaj
      cases hfd : (countTuples (a0 :: rest)).find?
          (fun kc => kc.2 = maxCountOf (a0 :: rest)) with
      | none => rw [hfd] at hmaj; simp at hmaj
      | some kc =>
        rw [hfd] at hmaj
        exact ⟨kc, rfl, by simpa using hmaj⟩
    simp [_consolidate_assignments, _consolidate_core, Except.map, hcond, majorityOf, hfind,
      hq, hleg, hp]

/-- Witness for C3 at a concrete input: two agreeing reports
`(price 1000, quantity 5, USD, in stock)` consolidate to the
corresponding Observation. -/
theorem consolidate_majority_C3_witness :
    ([exReport (some 1000) (some 5) (some "USD") true,
      exReport (some 1000) (some 5) (some "USD") true].head? =
        some (exReport (some 1000) (some 5) (some "USD") true)) ∧
    majorityOf [exReport (some 1000) (some 5) (some "USD") true,
      exReport (some 1000) (some 5) (some "USD") true] =
        some ⟨some 1000, some 5, some "USD", true⟩ ∧
    2 ≤ maxCountOf [exReport (some 1000) (some 5) (some "USD") true,
      exReport (some 1000) (some 5) (some "USD") true] ∧
    _consolidate_assignments 9
      [exReport (some 1000) (some 5) (some "USD") true,
       exReport (some 1000) (some 5) (some "USD") true] = .ok (some
        { datetime := exHit.creation_time
          price_cents := some 1000
          currency_symbol := some "USD"
          quantity := 5
          in_stock := true
          domain_name := exHit.domain_name
          url := exHit.url_param
          uuid := 9 }) :=
  ⟨rfl, by decide, by decide,
    (consolidate_majority_C3 9
      [exReport (some 1000) (some 5) (some "USD") true,
       exReport (some 1000) (some 5) (some "USD") true]
      (exReport (some 1000) (some 5) (some "USD") true) rfl).2
      ⟨some 1000, some 5, some "USD", true⟩ 5
      (by decide) (by decide) rfl (by decide) (by decide)⟩

/-- C5: When the majority tuple (count at least 2) has an actual integer
quantity that is not a positive multiple of 5 inside `[5, 500]`, the
consolidator returns `None`; and any quantity that is a multiple of 5
inside `[5, 500]` passes `_check_legit_quantity`. -/
theorem quantity_filter_C5 (u : Nat) (reports : List Assignment) (t : ReportTuple) (q : Int)
    (hmaj : majorityOf reports = some t) (hge : 2 ≤ maxCountOf reports)
    (hq : t.quantity = some q) :
    ((¬ q % 5 = 0 ∨ q < 5 ∨ 500 < q) → _consolidate_assignments u reports = .ok none) ∧
    (q % 5 = 0 ∧ 5 ≤ q ∧ q ≤ 500 → _check_legit_quantity q = true) := by
  constructor
  · intro hbad
    obtain ⟨a0, rest, rfl⟩ : ∃ a0 rest, reports = a0 :: rest := by
      cases reports with
      | nil => simp [majorityOf, countTuples] at hmaj
      | cons a0 rest => exact ⟨a0, rest, rfl⟩
    have hcond : MIN_MATCHING_RESULT ≤ maxCountOf (a0 :: rest) := by
      simpa [MIN_MATCHING_RESULT] using hge
    obtain ⟨kc, hfind, rfl⟩ :
        ∃ kc, (countTuples (a0 :: rest)).find?
            (fun kc => kc.2 = maxCountOf (a0 :: rest)) = some kc ∧ kc.1 = t := by
      unfold majorityOf at hmaj
      cases hfd : (countTuples (a0 :: rest)).find?
          (fun kc => kc.2 = maxCountOf (a0 :: rest)) with
      | none => rw [hfd] at hmaj; simp at hmaj
      | some kc =>
        rw [hfd] at hmaj
        exact ⟨kc, rfl, by simpa using hmaj⟩
    have hnotleg : _check_legit_quantity q = false := by
      simp only [_check_legit_quantity, decide_eq_false_iff_not]
      rcases hbad with h5 | hlt | hgt
      · exact fun hh => h5 hh.2.2
      · exact fun hh => absurd hh.1 (by omega)
      · exact fun hh => absurd hh.2.1 (by omega)
    simp [_consolidate_assignments, _consolidate_core, Except.map, hcond, majorityOf, hfind,
      hq, hnotleg]
  · intro hgood
    simp only [_check_legit_quantity, decide_eq_true_eq]
    exact ⟨hgood.2.1, hgood.2.2, hgood.1⟩

/-- Witness for C5 at a concrete input: two agreeing reports with
quantity 7 (not a multiple of 5) consolidate to `None`, while the
boundary quantity 500 passes the sanity check. -/
theorem quantity_filter_C5_witness :
    majorityOf [exReport (some 1000) (some 7) (some "USD") true,
      exReport (some 1000) (some 7) (some "USD") true] =
        some ⟨some 1000, some 7, some "USD", true⟩ ∧
    2 ≤ maxCountOf [exReport (some 1000) (some 7) (some "USD") true,
      exReport (some 1000) (some 7) (some "USD") true] ∧
    _consolidate_assignments 0
      [exReport (some 1000) (some 7) (some "USD") true,
       exReport (some 1000) (some 7) (some "USD") true] = .ok none ∧
    _check_legit_quantity 500 = true :=
  ⟨by decide, by decide,
    (quantity_filter_C5 0 _ ⟨some 1000, some 7, some "USD", true⟩ 7
      (by decide) (by decide) rfl).1 (by decide),
    by decide⟩

/-- Unfolding of `_consolidate_core` on a non-empty report list. -/
theorem consolidate_core_cons (a0 : Assignment) (rest : List Assignment) :
    _consolidate_core (a0 :: rest) =
      (if MIN_MATCHING_RESULT ≤ maxCountOf (a0 :: rest) then
        match majorityOf (a0 :: rest) with
        | none => .ok none
        | some t =>
          match t.quantity with
          | none => .error ()
          | some q =>
            if ¬ _check_legit_quantity q ∨ t.price = some 0 then .ok none
            else
              .ok (some
                { datetime := a0.hit.creation_time
                  price_cents := t.price
                  currency_symbol := t.currency
                  quantity := q
                  in_stock := t.in_stock
                  domain_name := a0.hit.domain_name
                  url := a0.hit.url_param })
      else .ok none) := rfl

/-- Any stored observation data produced by the consolidator core has a
quantity of at least 5 and a stored price different from `some 0`. -/
theorem consolidate_core_invariant (reports : List Assignment) (d : ObsData)
    (h : _consolidate_core reports = .ok (some d)) :
    5 ≤ d.quantity ∧ d.price_cents ≠ some 0 := by
  cases reports with
  | nil => simp [_consolidate_core] at h
  | cons a0 rest =>
    rw [consolidate_core_cons] at h
    split at h
    · split at h
      · simp at h
      · split at h
        · simp at h
        · rename_i t _ q _
          split at h
          · simp at h
          · rename_i hcond
            push_neg at hcond
            obtain ⟨hleg, hprice⟩ := hcond
            have hq5 : (5 : Int) ≤ q ∧ q ≤ 500 ∧ q % 5 = 0 := by
              simpa [_check_legit_quantity] using hleg
            simp only [Except.ok.injEq, Option.some.injEq] at h
            rw [← h]
            exact ⟨hq5.1, hprice⟩
    · simp at h

/-- C4 counterexample: a majority tuple with a missing price passes the
`price == 0` check (`None == 0` is `False` in Python), so the consolidator
produces an Observation whose stored price is `None` — such an Observation
does not satisfy "price > 0". -/
theorem consolidate_price_invariant_C4_counterexample :
    _consolidate_assignments 0 nonePriceReports = .ok (some nonePriceObs) ∧
    nonePriceObs.price_cents = none :=
  ⟨rfl, rfl⟩

/-- C4 (amended): every Observation the consolidator produces has a
positive quantity (the sanity filter enforces `5 ≤ quantity`) and its
stored price is never `some 0` (zero prices are rejected); but a missing
price is not rejected, so "price > 0" only holds when the stored price is
present. -/
theorem consolidate_invariant_C4_amended (u : Nat) (reports : List Assignment)
    (o : Observation) (h : _consolidate_assignments u reports = .ok (some o)) :
    0 < o.quantity ∧ o.price_cents ≠ some 0 := by
  unfold _consolidate_assignments at h
  cases hc : _consolidate_core reports with
  | error e => rw [hc] at h; simp [Except.map] at h
  | ok r =>
    rw [hc] at h
    cases r with
    | none => simp [Except.map] at h
    | some d =>
      have hd := consolidate_core_invariant reports d hc
      have ho : o = { toObsData := d, uuid := u } := by
        simp only [Except.map, Option.map, Except.ok.injEq, Option.some.injEq] at h
        exact h.symm
      subst ho
      refine ⟨?_, hd.2⟩
      show (0 : Int) < d.quantity
      have := hd.1
      omega

/-- Witness for the amended C4 at a concrete input: the Observation built
from two agreeing `(1000, 5, USD, true)` reports has positive quantity and
nonzero stored price. -/
theorem consolidate_invariant_C4_witness :
    _consolidate_assignments 9
      [exReport (some 1000) (some 5) (some "USD") true,
       exReport (some 1000) (some 5) (some "USD") true] = .ok (some exGoodObs) ∧
    (0 < exGoodObs.quantity ∧ exGoodObs.price_cents ≠ some 0) :=
  ⟨rfl, consolidate_invariant_C4_amended 9
    [exReport (some 1000) (some 5) (some "USD") true,
     exReport (some 1000) (some 5) (some "USD") true] exGoodObs rfl⟩

/-- C6 counterexample: when the majority tuple's quantity is `None`,
`_check_legit_quantity` evaluates `5 <= None`, which raises `TypeError`
in Python 3 — the consolidator does raise on this input instead of
returning an Observation or `None`. -/
theorem consolidate_raises_C6_counterexample :
    _consolidate_assignments 0 noneQuantityReports = .error () := rfl

/-- C6 (amended): the consolidator never raises — returning either an
Observation or `None` — provided the majority tuple's quantity is not
missing whenever the majority count reaches 2; in particular ties for the
maximum count and missing price or currency values never make it raise. -/
theorem consolidate_no_raise_C6_amended (u : Nat) (reports : List Assignment)
    (h : ∀ t, majorityOf reports = some t → 2 ≤ maxCountOf reports → t.quantity ≠ none) :
    _consolidate_assignments u reports ≠ .error () := by
  unfold _consolidate_assignments
  cases hc : _consolidate_core reports with
  | ok r => simp [Except.map]
  | error e =>
    exfalso
    cases reports with
    | nil => simp [_consolidate_core] at hc
    | cons a0 rest =>
      rw [consolidate_core_cons] at hc
      split at hc
      · rename_i hge
        split at hc
        · simp at hc
        · rename_i t hmaj
          split at hc
          · rename_i hq
            exact (h t hmaj hge) hq
          · split at hc <;> simp at hc
      · simp at hc

/-- Witness for the amended C6 at a concrete input: on a tie between two
complete tuples the consolidator does not raise. -/
theorem consolidate_no_raise_C6_witness :
    (∀ t, majorityOf tieReports = some t → 2 ≤ maxCountOf tieReports →
      t.quantity ≠ none) ∧
    _consolidate_assignments 3 tieReports ≠ .error () :=
  have hh : ∀ t, majorityOf tieReports = some t → 2 ≤ maxCountOf tieReports →
      t.quantity ≠ none := by
    intro t ht _
    have h2 : some (⟨some 1000, some 5, some "USD", true⟩ : ReportTuple) = some t := ht
    injection h2 with h3
    rw [← h3]
    decide
  ⟨hh, consolidate_no_raise_C6_amended 3 tieReports hh⟩

/-- C8: For an observation whose currency symbol is the dollar sign, or
whose symbol resolves to USD, `price_usd` is the stored price unchanged
(`price_cents / 100`, no conversion), and the unit price in USD is that
price divided by the quantity. -/
theorem usd_no_conversion_C8 (resolve : String → Option String)
    (conv : ℚ → String → String → ℚ) (o : ObsData) (c : Int)
    (hcur : o.currency_symbol = some "$" ∨ o.iso_currency resolve = some "USD")
    (hp : o.price_cents = some c) :
    o.price_usd resolve conv = some ((c : ℚ) / 100) ∧
    o.unit_price_usd resolve conv = some ((c : ℚ) / 100 / (o.quantity : ℚ)) := by
  have hiso : o.iso_currency resolve = some "USD" := by
    rcases hcur with h | h
    · simp [ObsData.iso_currency, h]
    · exact h
  have hprice : o.price = some ((c : ℚ) / 100) := by
    simp [ObsData.price, hp]
  have husd : o.price_usd resolve conv = some ((c : ℚ) / 100) := by
    unfold ObsData.price_usd
    rw [hiso, hprice]
    simp
  exact ⟨husd, by simp [ObsData.unit_price_usd, husd]⟩

/-- Witness for C8 at a concrete input: a `$`-priced observation of 1000
cents for 5 units has USD price 10 and unit price 2, whatever the
external resolver and converter do. -/
theorem usd_no_conversion_C8_witness :
    (exUsdObs.currency_symbol = some "$" ∨
      exUsdObs.iso_currency (fun _ => none) = some "USD") ∧
    exUsdObs.price_cents = some 1000 ∧
    exUsdObs.price_usd (fun _ => none) (fun p _ _ => p + 1) = some ((1000 : ℚ) / 100) ∧
    exUsdObs.unit_price_usd (fun _ => none) (fun p _ _ => p + 1) =
      some ((1000 : ℚ) / 100 / ((5 : Int) : ℚ)) :=
  have h := usd_no_conversion_C8 (fun _ => none) (fun p _ _ => p + 1) exUsdObs 1000
    (Or.inl rfl) rfl
  ⟨Or.inl rfl, rfl, h.1, h.2⟩

/-- The population variance is non-negative. -/
theorem listVar_nonneg (xs : List ℚ) : 0 ≤ listVar xs := by
  unfold listVar
  apply div_nonneg
  · apply List.sum_nonneg
    intro x hx
    obtain ⟨y, _, rfl⟩ := List.mem_map.mp hx
    positivity
  · positivity

/-- The z-score test passes exactly when the squared deviation is below
the variance (over `ℚ`; the `var = 0` guard is subsumed because a square
is never below zero). -/
theorem zscoreLtOne_iff_sq (xs : List ℚ) (x : ℚ) :
    zscoreLtOne xs x = true ↔ (x - listMean xs) ^ 2 < listVar xs := by
  unfold zscoreLtOne
  split
  · rename_i h0
    rw [h0]
    simp only [Bool.false_eq_true, false_iff, not_lt]
    positivity
  · simp [OUTLIER_THRESHOLD]

/-- The z-score test is "the absolute deviation from the bucket mean is
strictly below the (real) standard deviation", i.e. `|z| < 1` whenever the
standard deviation is nonzero, and never passes when it is zero. -/
theorem zscoreLtOne_iff_real (xs : List ℚ) (x : ℚ) :
    zscoreLtOne xs x = true ↔
      |(x : ℝ) - (listMean xs : ℝ)| < Real.sqrt (listVar xs : ℝ) := by
  rw [zscoreLtOne_iff_sq, Real.lt_sqrt (abs_nonneg _), sq_abs]
  constructor
  · intro h
    have h2 : ((x - listMean xs) ^ 2 : ℝ) < ((listVar xs : ℚ) : ℝ) := by exact_mod_cast h
    simpa using h2
  · intro h
    have h2 : (((x - listMean xs) ^ 2 : ℚ) : ℝ) < ((listVar xs : ℚ) : ℝ) := by
      push_cast
      simpa using h
    exact_mod_cast h2

/-- When the uuids in the batch are pairwise distinct — as they are in the
pipeline, where every `_Observation.__post_init__` draws a fresh
`uuid4` — selecting rows by uuid membership is the same as filtering
pointwise by the z-score test. -/
theorem filter_by_uuid_eq (pass : Observation → Bool) (curr : List Observation)
    (hnd : (curr.map Observation.uuid).Nodup) :
    curr.filter (fun o => decide (o.uuid ∈ (curr.filter pass).map (fun b => b.uuid))) =
    curr.filter pass := by
  apply List.filter_congr
  intro o ho
  cases hpass : pass o with
  | true =>
    simp only [decide_eq_true_eq]
    exact List.mem_map.mpr ⟨o, List.mem_filter.mpr ⟨ho, hpass⟩, rfl⟩
  | false =>
    simp only [decide_eq_false_iff_not]
    intro hmem
    obtain ⟨o2, ho2, he⟩ := List.mem_map.mp hmem
    have ho2c : o2 ∈ curr := List.mem_of_mem_filter ho2
    have heq : o2 = o := List.inj_on_of_nodup_map hnd ho2c ho he
    rw [heq] at ho2
    have hp2 := (List.mem_filter.mp ho2).2
    rw [hpass] at hp2
    exact absurd hp2 (by simp)

theorem filter_outliers_eq_pointwise (up : ObsData → ℚ) (observations : List Observation)
    (hnd : (observations.map Observation.uuid).Nodup) :
    _filter_outliers up observations = filterPointwise up observations := by
  show List.flatten _ = List.flatten _
  congr 1
  apply List.map_congr_left
  intro md _
  dsimp only
  by_cases hlen : (bucketOf observations md.1 md.2).length < 3
  · simp [hlen]
  · simp only [if_neg hlen]
    exact filter_by_uuid_eq _ _
      (List.Nodup.sublist ((List.filter_sublist observations).map Observation.uuid) hnd)

/-- Membership in a (marketplace, date) bucket. -/
theorem mem_bucketOf {observations : List Observation} {o : Observation} {m d : String} :
    o ∈ bucketOf observations m d ↔
      o ∈ observations ∧ o.toObsData.marketplace = m ∧ o.toObsData.date_str = d := by
  simp [bucketOf]

/-- Every observation's own (marketplace, date) key occurs among the
bucket keys of its batch. -/
theorem mem_bucketPairs (observations : List Observation) (o : Observation)
    (ho : o ∈ observations) :
    (o.toObsData.marketplace, o.toObsData.date_str) ∈ bucketPairs observations := by
  unfold bucketPairs
  rw [List.mem_flatMap]
  exact ⟨o.toObsData.marketplace,
    List.mem_dedup.mpr (List.mem_map.mpr ⟨o, ho, rfl⟩),
    List.mem_map.mpr ⟨o.toObsData.date_str,
      List.mem_dedup.mpr (List.mem_map.mpr ⟨o, ho, rfl⟩), rfl⟩⟩

/-- C2: The outlier filter partitions the batch by (marketplace key,
calendar date); an observation of the batch (with pairwise-distinct
uuids) is retained exactly when its bucket has fewer than 3 observations,
or its unit price deviates from the bucket mean by strictly less than the
bucket's (real) standard deviation — that is, its z-score exists and has
absolute value strictly below 1. -/
theorem filter_outliers_spec_C2 (up : ObsData → ℚ) (observations : List Observation)
    (hnd : (observations.map Observation.uuid).Nodup) (o : Observation) :
    o ∈ _filter_outliers up observations ↔
      o ∈ observations ∧
        ((bucketOf observations o.toObsData.marketplace o.toObsData.date_str).length < 3 ∨
          |(up o.toObsData : ℝ) -
              (listMean (bucketUnitPrices up observations
                o.toObsData.marketplace o.toObsData.date_str) : ℝ)| <
            Real.sqrt (listVar (bucketUnitPrices up observations
              o.toObsData.marketplace o.toObsData.date_str) : ℝ)) := by
  rw [filter_outliers_eq_pointwise up observations hnd]
  unfold filterPointwise
  rw [List.mem_flatMap]
  constructor
  · rintro ⟨md, hmd, ho⟩
    dsimp only at ho
    by_cases hlen : (bucketOf observations md.1 md.2).length < 3
    · rw [if_pos hlen] at ho
      obtain ⟨hobs, h1, h2⟩ := mem_bucketOf.mp ho
      refine ⟨hobs, Or.inl ?_⟩
      rw [h1, h2]
      exact hlen
    · rw [if_neg hlen] at ho
      obtain ⟨hob, hpass⟩ := List.mem_filter.mp ho
      obtain ⟨hobs, h1, h2⟩ := mem_bucketOf.mp hob
      refine ⟨hobs, Or.inr ?_⟩
      rw [h1, h2]
      have hr := (zscoreLtOne_iff_real _ _).mp hpass
      simpa [bucketUnitPrices] using hr
  · rintro ⟨hobs, hcond⟩
    refine ⟨(o.toObsData.marketplace, o.toObsData.date_str),
      mem_bucketPairs observations o hobs, ?_⟩
    dsimp only
    have hob : o ∈ bucketOf observations o.toObsData.marketplace o.toObsData.date_str :=
      mem_bucketOf.mpr ⟨hobs, rfl, rfl⟩
    by_cases hlen :
        (bucketOf observations o.toObsData.marketplace o.toObsData.date_str).length < 3
    · rw [if_pos hlen]
      exact hob
    · rw [if_neg hlen]
      rcases hcond with h | h
      · exact absurd h hlen
      · exact List.mem_filter.mpr
          ⟨hob, (zscoreLtOne_iff_real _ _).mpr (by simpa [bucketUnitPrices] using h)⟩

/-- The `getLastD` of a non-empty list is one of its elements. -/
theorem getLastD_mem_of_ne_nil {α : Type} (l : List α) (d : α) (h : l ≠ []) :
    l.getLastD d ∈ l := by
  cases l with
  | nil => exact absurd rfl h
  | cons a t =>
    rw [List.getLastD_cons]
    exact List.getLastD_mem_cons t a

/-- In a `≤`-sorted list every element is at most the last element. -/
theorem sorted_le_getLastD : ∀ (l : List String) (dflt : String),
    l.Pairwise (fun a b => a ≤ b) → ∀ x ∈ l, x ≤ l.getLastD dflt := by
  intro l
  induction l with
  | nil => simp
  | cons a t ih =>
    intro dflt hp x hx
    rw [List.getLastD_cons]
    rcases List.mem_cons.mp hx with rfl | hxt
    · rcases List.mem_cons.mp (List.getLastD_mem_cons t x) with hgd | hgd
      · rw [hgd]
      · exact (List.pairwise_cons.mp hp).1 _ hgd
    · exact ih a (List.pairwise_cons.mp hp).2 x hxt

/-- The `mergeSort` by a key into a linear order yields a list that is
pairwise ordered on that key. -/
theorem mergeSort_pairwise_key {α β : Type} [LinearOrder β] (key : α → β) (l : List α) :
    (l.mergeSort (fun a b => decide (key a ≤ key b))).Pairwise (fun a b => key a ≤ key b) := by
  have h : (l.mergeSort (fun a b => decide (key a ≤ key b))).Pairwise
      (fun a b => decide (key a ≤ key b) = true) :=
    List.sorted_mergeSort
      (by
        intro a b c h1 h2
        simp only [decide_eq_true_eq] at h1 h2 ⊢
        exact le_trans h1 h2)
      (by
        intro a b
        simpa using le_total (key a) (key b)) l
  exact h.imp (fun hab => of_decide_eq_true hab)

/-- C9: For a marketplace occurring in the batch, the latest-snapshot
export consists of exactly the `(Url, unit price)` rows of that
marketplace's observations dated with the lexicographic maximum of the
marketplace's date strings, sorted ascending by unit price. -/
theorem export_latest_C9 (up : ObsData → ℚ) (all_observations : List ObsData) (m : String)
    (hm : m ∈ all_observations.map ObsData.marketplace) :
    ∃ dmax,
      dmax ∈ (all_observations.filter
        (fun o => decide (o.marketplace = m))).map ObsData.date_str ∧
      (∀ d ∈ (all_observations.filter
        (fun o => decide (o.marketplace = m))).map ObsData.date_str, d ≤ dmax) ∧
      (_export_latest_marketplace up all_observations m).Perm
        (((all_observations.filter (fun o => decide (o.marketplace = m))).filter
            (fun o => decide (o.date_str = dmax))).map (fun o => (o.url, up o))) ∧
      (_export_latest_marketplace up all_observations m).Pairwise (fun r s => r.2 ≤ s.2) := by
  have hne : all_observations.filter (fun o => decide (o.marketplace = m)) ≠ [] := by
    obtain ⟨o, ho, hom⟩ := List.mem_map.mp hm
    intro hnil
    have hmem : o ∈ all_observations.filter (fun o => decide (o.marketplace = m)) :=
      List.mem_filter.mpr ⟨ho, by simp [hom]⟩
    rw [hnil] at hmem
    simp at hmem
  have hdne : (all_observations.filter
      (fun o => decide (o.marketplace = m))).map ObsData.date_str ≠ [] := by
    simpa using hne
  have hperm := List.mergeSort_perm
    ((all_observations.filter (fun o => decide (o.marketplace = m))).map ObsData.date_str)
    (fun a b => decide (a ≤ b))
  have hsorted := mergeSort_pairwise_key (fun s : String => s)
    ((all_observations.filter (fun o => decide (o.marketplace = m))).map ObsData.date_str)
  have hsne : ((all_observations.filter
      (fun o => decide (o.marketplace = m))).map ObsData.date_str).mergeSort
        (fun a b => decide (a ≤ b)) ≠ [] := by
    intro h0
    rw [h0] at hperm
    exact hdne hperm.symm.eq_nil
  refine ⟨latestDateStr ((all_observations.filter
      (fun o => decide (o.marketplace = m))).map ObsData.date_str), ?_, ?_, ?_, ?_⟩
  · exact hperm.subset (getLastD_mem_of_ne_nil _ "" hsne)
  · intro d hd
    exact sorted_le_getLastD _ "" hsorted d (hperm.mem_iff.mpr hd)
  · unfold _export_latest_marketplace
    dsimp only
    exact List.mergeSort_perm _ _
  · unfold _export_latest_marketplace
    dsimp only
    exact mergeSort_pairwise_key (fun r : String × ℚ => r.2) _

/-- Witness for C9 at a concrete input: for a marketplace observed on
2024-01-01 and 2024-01-02, the latest snapshot holds only the 2024-01-02
rows, sorted by unit price. -/
theorem export_latest_C9_witness :
    "m_shop" ∈ c9Data.map ObsData.marketplace ∧
    (∃ dmax,
      dmax ∈ (c9Data.filter
        (fun o => decide (o.marketplace = "m_shop"))).map ObsData.date_str ∧
      (∀ d ∈ (c9Data.filter
        (fun o => decide (o.marketplace = "m_shop"))).map ObsData.date_str, d ≤ dmax) ∧
      (_export_latest_marketplace (fun _ => 10) c9Data "m_shop").Perm
        (((c9Data.filter (fun o => decide (o.marketplace = "m_shop"))).filter
            (fun o => decide (o.date_str = dmax))).map (fun o => (o.url, (fun _ : ObsData => (10 : ℚ)) o))) ∧
      (_export_latest_marketplace (fun _ => 10) c9Data "m_shop").Pairwise
        (fun r s => r.2 ≤ s.2)) :=
  ⟨by decide, export_latest_C9 (fun _ => 10) c9Data "m_shop" (by decide)⟩

/-- Witness for C2 at a concrete input: the retention criterion holds for
the first observation of a bucket of three with unit prices 10, 10, 16. -/
theorem filter_outliers_spec_C2_witness :
    (c2Batch.map Observation.uuid).Nodup ∧
    (c2ObsA ∈ _filter_outliers c2up c2Batch ↔
      c2ObsA ∈ c2Batch ∧
        ((bucketOf c2Batch c2ObsA.toObsData.marketplace c2ObsA.toObsData.date_str).length < 3 ∨
          |(c2up c2ObsA.toObsData : ℝ) -
              (listMean (bucketUnitPrices c2up c2Batch
                c2ObsA.toObsData.marketplace c2ObsA.toObsData.date_str) : ℝ)| <
            Real.sqrt (listVar (bucketUnitPrices c2up c2Batch
              c2ObsA.toObsData.marketplace c2ObsA.toObsData.date_str) : ℝ))) :=
  ⟨by decide, filter_outliers_spec_C2 c2up c2Batch (by decide) c2ObsA⟩

/-- C1 (code bug): a bucket of 4 observations in the same marketplace and
day whose unit prices are all 10 — the spec requires all of them retained
(zero variance means no outliers), but the z-score column is constant, so
`stats.zscore` is `0/0 = NaN`, `np.abs(NaN) < 1` is `False`, and the
filter removes the whole bucket. -/
theorem identical_bucket_removed_C1 :
    _filter_outliers (fun _ => 10) identicalBucketObs = [] := by
  have hv : listVar [10, 10, 10, 10] = 0 := by
    norm_num [listVar, listMean]
  have hz : zscoreLtOne [10, 10, 10, 10] 10 = false := by
    simp [zscoreLtOne, hv]
  have hp : bucketPairs identicalBucketObs = [("mask_shop", "2024-04-01")] := by decide
  have hb : bucketOf identicalBucketObs "mask_shop" "2024-04-01" = identicalBucketObs := by
    decide
  have hups : identicalBucketObs.map (fun o => (fun _ : ObsData => (10 : ℚ)) o.toObsData) =
      [10, 10, 10, 10] := rfl
  rw [_filter_outliers, hp]
  simp only [List.flatMap_cons, List.flatMap_nil, List.append_nil, hb, hups]
  norm_num [identicalBucketObs, hz]

/-- If the consolidator returns an Observation, its uuid is the fresh one
passed to the constructor. -/
theorem consolidate_assignments_uuid (u : Nat) (gp : List Assignment) (o : Observation)
    (h : _consolidate_assignments u gp = .ok (some o)) : o.uuid = u := by
  unfold _consolidate_assignments at h
  cases hc : _consolidate_core gp with
  | error e => rw [hc] at h; simp [Except.map] at h
  | ok r =>
    rw [hc] at h
    cases r with
    | none => simp [Except.map] at h
    | some d =>
      simp only [Except.map, Option.map, Except.ok.injEq, Option.some.injEq] at h
      rw [← h]

/-- Collecting with uuids and then dropping them is collecting the
uuid-free data: the consolidated data do not depend on the drawn uuids. -/
theorem collectAux_data (f : Nat → Nat) : ∀ (i : Nat) (gps : List (List Assignment)),
    (collectObservationsAux f i gps).map (List.map Observation.toObsData) =
      collectData gps := by
  intro i gps
  induction gps generalizing i with
  | nil => rfl
  | cons gp rest ih =>
    unfold collectObservationsAux collectData
    unfold _consolidate_assignments
    cases hc : _consolidate_core gp with
    | error e => simp [hc, Except.map, Except.bind, bind]
    | ok r =>
      cases hrest : collectObservationsAux f (i + 1) rest with
      | error e =>
        have hd : collectData rest = .error e := by rw [← ih (i + 1), hrest]; rfl
        cases r with
        | none => simp [hc, hrest, hd, Except.map, Except.bind, bind]
        | some d => simp [hc, hrest, hd, Except.map, Except.bind, bind]
      | ok others =>
        have hd : collectData rest = .ok (others.map Observation.toObsData) := by
          rw [← ih (i + 1), hrest]; rfl
        cases r with
        | none => simp [hc, hrest, hd, Except.map, Except.bind, bind]
        | some d => simp [hc, hrest, hd, Except.map, Except.bind, bind]

/-- With an injective uuid source, the collected observations carry
uuids from pairwise-distinct draws: every uuid comes from an index at
least the start index, and the uuid column is duplicate-free. -/
theorem collectAux_uuids (f : Nat → Nat) (hf : Function.Injective f) :
    ∀ (gps : List (List Assignment)) (i : Nat) (l : List Observation),
      collectObservationsAux f i gps = .ok l →
      (∀ o ∈ l, ∃ j, i ≤ j ∧ o.uuid = f j) ∧ (l.map Observation.uuid).Nodup := by
  intro gps
  induction gps with
  | nil =>
    intro i l h
    obtain rfl : ([] : List Observation) = l := by injection h
    simp
  | cons gp rest ih =>
    intro i l h
    unfold collectObservationsAux at h
    cases hc : _consolidate_assignments (f i) gp with
    | error e => rw [hc] at h; simp [Except.bind, bind] at h
    | ok r =>
      rw [hc] at h
      cases hrest : collectObservationsAux f (i + 1) rest with
      | error e => rw [hrest] at h; simp [Except.bind, bind] at h
      | ok others =>
        rw [hrest] at h
        obtain ⟨hmem, hnd⟩ := ih (i + 1) others hrest
        cases r with
        | none =>
          simp only [Except.bind, bind, Except.ok.injEq] at h
          subst h
          refine ⟨fun o ho => ?_, hnd⟩
          obtain ⟨j, hj, hu⟩ := hmem o ho
          exact ⟨j, by omega, hu⟩
        | some o0 =>
          simp only [Except.bind, bind, Except.ok.injEq] at h
          subst h
          have hu0 : o0.uuid = f i := consolidate_assignments_uuid _ _ _ hc
          constructor
          · intro o ho
            rcases List.mem_cons.mp ho with rfl | hot
            · exact ⟨i, le_refl i, hu0⟩
            · obtain ⟨j, hj, hu⟩ := hmem o hot
              exact ⟨j, by omega, hu⟩
          · rw [List.map_cons, List.nodup_cons]
            refine ⟨?_, hnd⟩
            intro hcontra
            obtain ⟨o2, ho2, he⟩ := List.mem_map.mp hcontra
            obtain ⟨j, hj, hu⟩ := hmem o2 ho2
            have hfji : f j = f i := by rw [← hu, he, hu0]
            have := hf hfji
            omega

/-- Dropping uuids commutes with the pointwise outlier filter. -/
theorem filterPointwise_map_data (up : ObsData → ℚ) (l : List Observation) :
    (filterPointwise up l).map Observation.toObsData =
      filterPointwiseData up (l.map Observation.toObsData) := by
  unfold filterPointwise filterPointwiseData bucketPairs bucketOf
  rw [List.map_flatMap]
  have hm : (l.map Observation.toObsData).map ObsData.marketplace =
      l.map (fun o => o.toObsData.marketplace) := by
    rw [List.map_map]; rfl
  have hd : (l.map Observation.toObsData).map ObsData.date_str =
      l.map (fun o => o.toObsData.date_str) := by
    rw [List.map_map]; rfl
  rw [hm, hd]
  show List.flatten _ = List.flatten _
  congr 1
  apply List.map_congr_left
  intro md _
  dsimp only
  have hcurr : (l.filter (fun o =>
        decide (o.toObsData.marketplace = md.1 ∧ o.toObsData.date_str = md.2))).map
          Observation.toObsData =
      (l.map Observation.toObsData).filter
        (fun o => decide (o.marketplace = md.1 ∧ o.date_str = md.2)) := by
    rw [List.filter_map]
    rfl
  have hlen : ((l.map Observation.toObsData).filter
      (fun o => decide (o.marketplace = md.1 ∧ o.date_str = md.2))).length =
      (l.filter (fun o =>
        decide (o.toObsData.marketplace = md.1 ∧ o.toObsData.date_str = md.2))).length := by
    rw [← hcurr, List.length_map]
  by_cases h3 : (l.filter (fun o =>
      decide (o.toObsData.marketplace = md.1 ∧ o.toObsData.date_str = md.2))).length < 3
  · rw [if_pos h3, if_pos (by rw [hlen]; exact h3)]
    exact hcurr
  · rw [if_neg h3, if_neg (by rw [hlen]; exact h3)]
    rw [← hcurr, List.filter_map, List.map_map]
    rfl

/-- C7: The export pipeline is a deterministic function of the input
report set — the freshly generated per-Observation identifiers do not
influence the exported rows: running it with any two (injective) uuid
sources produces identical output, so two runs over the same input
produce identical output files. -/
theorem pipeline_deterministic_C7 (up : ObsData → ℚ) (f g : Nat → Nat)
    (groups : List (List Assignment))
    (hf : Function.Injective f) (hg : Function.Injective g) :
    runPipeline up f groups = runPipeline up g groups := by
  unfold runPipeline
  have hfd := collectAux_data f 0 groups
  have hgd := collectAux_data g 0 groups
  cases hcf : collectObservationsAux f 0 groups with
  | error e =>
    rw [hcf] at hfd
    cases hcg : collectObservationsAux g 0 groups with
    | error e2 =>
      simp only [Except.bind, bind]
    | ok l2 =>
      rw [hcg] at hgd
      simp only [Except.map] at hfd hgd
      rw [← hfd] at hgd
      exact absurd hgd (by simp)
  | ok l1 =>
    rw [hcf] at hfd
    cases hcg : collectObservationsAux g 0 groups with
    | error e =>
      rw [hcg] at hgd
      simp only [Except.map] at hfd hgd
      rw [← hfd] at hgd
      exact absurd hgd (by simp)
    | ok l2 =>
      rw [hcg] at hgd
      simp only [Except.map] at hfd hgd
      have hdata : l1.map Observation.toObsData = l2.map Observation.toObsData := by
        have h12 := hfd.trans hgd.symm
        injection h12
      have hnd1 := (collectAux_uuids f hf groups 0 l1 hcf).2
      have hnd2 := (collectAux_uuids g hg groups 0 l2 hcg).2
      have hfilter : (_filter_outliers up l1).map Observation.toObsData =
          (_filter_outliers up l2).map Observation.toObsData := by
        rw [filter_outliers_eq_pointwise up l1 hnd1, filter_outliers_eq_pointwise up l2 hnd2,
          filterPointwise_map_data, filterPointwise_map_data, hdata]
      simp only [Except.bind, bind]
      rw [hfilter]

/-- Witness for C7 at a concrete input: one task with two agreeing
reports exports identically under two different uuid sources. -/
theorem pipeline_deterministic_C7_witness :
    Function.Injective (fun n : Nat => n) ∧
    Function.Injective (fun n : Nat => n + 1) ∧
    runPipeline (fun _ => 10) (fun n => n)
      [[exReport (some 1000) (some 5) (some "USD") true,
        exReport (some 1000) (some 5) (some "USD") true]] =
      runPipeline (fun _ => 10) (fun n => n + 1)
        [[exReport (some 1000) (some 5) (some "USD") true,
          exReport (some 1000) (some 5) (some "USD") true]] :=
  ⟨fun _ _ h => h, fun _ _ h => by simpa using h,
    pipeline_deterministic_C7 (fun _ => 10) (fun n => n) (fun n => n + 1)
      [[exReport (some 1000) (some 5) (some "USD") true,
        exReport (some 1000) (some 5) (some "USD") true]]
      (fun _ _ h => h) (fun _ _ h => by simpa using h)⟩
